import Mathlib

/-!
Shallow embedding of the fintech_system repository (Django project):
users, wallets, transactions (transfer/deposit services), payment
intents and webhook processing.  Sequential semantics: each service
call is a function from a database state to a result and a new state.
Django's transaction.atomic is modelled by having every error branch
return the caller's original state (rollback of all writes made in the
block), and save(update_fields=[...]) by updating only those columns
on the stored row.
-/

namespace Fintech

/-- Money: DecimalField(max_digits=15, decimal_places=2); modelled as an
exact rational (python Decimal arithmetic on balances is exact). -/
abbrev Money := Rat

/-- users.models.User.KYCStatus choices. -/
inductive KYCStatus where
  | PENDING
  | IN_REVIEW
  | VERIFIED
  | REJECTED
  | EXPIRED
deriving DecidableEq, Repr

/-- transactions.models.Transaction.TransactionType choices. -/
inductive TxnType where
  | TRANSFER
  | DEPOSIT
  | WITHDRAWAL
  | REFUND
  | FEE
deriving DecidableEq, Repr

/-- transactions.models.Transaction.TransactionStatus choices. -/
inductive TxnStatus where
  | PENDING
  | PROCESSING
  | COMPLETED
  | FAILED
  | CANCELLED
deriving DecidableEq, Repr

/-- transactions.models.TransactionLedger.EntryType choices. -/
inductive EntryType where
  | DEBIT
  | CREDIT
deriving DecidableEq, Repr

/-- payments.models.PaymentIntent.PaymentStatus choices. -/
inductive PaymentStatus where
  | PENDING
  | PROCESSING
  | SUCCEEDED
  | FAILED
  | CANCELLED
deriving DecidableEq, Repr

/-- payments.models.WebhookEvent.EventStatus choices. -/
inductive EventStatus where
  | PENDING
  | PROCESSING
  | PROCESSED
  | FAILED
deriving DecidableEq, Repr

/-- users.models.User: the fields the claimed behaviour depends on
(uid is the UUID primary key rendered as a string). -/
structure User where
  uid : String
  kyc_status : KYCStatus
  is_active : Bool
  is_staff : Bool
deriving DecidableEq, Repr

/-- users.models.User.is_kyc_verified. -/
def User.is_kyc_verified (u : User) : Bool :=
  u.kyc_status == KYCStatus.VERIFIED

/-- users.models.User.can_transact: is_active and is_kyc_verified. -/
def User.can_transact (u : User) : Bool :=
  u.is_active && u.is_kyc_verified

/-- transactions.models.Transaction row / instance.  tid is the UUID
primary key, modelled as a Nat drawn from a fresh counter. -/
structure Txn where
  tid : Nat
  reference_id : String
  from_user : Option String
  to_user : Option String
  amount : Money
  transaction_type : TxnType
  status : TxnStatus
  description : String
  from_balance_before : Option Money := none
  from_balance_after : Option Money := none
  to_balance_before : Option Money := none
  to_balance_after : Option Money := none
  error_message : String := ""
deriving DecidableEq, Repr

/-- transactions.models.TransactionLedger row (txn is the id of the
owning transaction). -/
structure LedgerEntry where
  txn : Nat
  user : String
  entry_type : EntryType
  amount : Money
  balance_after : Money
deriving DecidableEq, Repr

/-- payments.models.PaymentIntent row; user is the FK user object. -/
structure PaymentIntent where
  gateway_payment_id : String
  user : User
  amount : Money
  currency : String := "USD"
  payment_method : String := ""
  status : PaymentStatus
  error_message : String := ""
deriving DecidableEq, Repr

/-- Parsed webhook payload (the JSON dict).  payment_id is used as the
event id; event and error_message are read with .get defaults. -/
structure Payload where
  event : Option String
  payment_id : String
  error_message : Option String := none
deriving DecidableEq, Repr

/-- payments.models.WebhookEvent row (payload column omitted: nothing
in the claims reads it back). -/
structure WebhookEvent where
  event_id : String
  event_type : String
  status : EventStatus
  error_message : String := ""
  retry_count : Nat := 0
deriving DecidableEq, Repr

/-- The relational store plus the idempotency cache, as one state.
cacheIdem maps a reference_id to a transaction id (the txn_idempotency
cache keys).  nextTid is the fresh-id source for transaction rows. -/
structure DB where
  txns : List Txn
  ledger : List LedgerEntry
  wallets : List (String × Money)
  cacheIdem : List (String × Nat)
  intents : List PaymentIntent
  events : List WebhookEvent
  nextTid : Nat
deriving DecidableEq, Repr

/-- Wallet row lookup by user id (wallets.user is unique). -/
def getBalance? (ws : List (String × Money)) (uid : String) : Option Money :=
  (ws.find? (fun p => p.1 == uid)).map Prod.snd

/-- Persist a wallet balance (UPDATE of the row keyed by user id). -/
def setBalance (ws : List (String × Money)) (uid : String) (b : Money) :
    List (String × Money) :=
  ws.map (fun p => if p.1 == uid then (p.1, b) else p)

/-- Transaction.objects.get(id=...). -/
def findTxnById (db : DB) (tid : Nat) : Option Txn :=
  db.txns.find? (fun t => t.tid == tid)

/-- Transaction.objects.get(reference_id=...). -/
def findTxnByRef (db : DB) (r : String) : Option Txn :=
  db.txns.find? (fun t => t.reference_id == r)

/-- cache.get on the idempotency cache. -/
def cacheGet (db : DB) (k : String) : Option Nat :=
  (db.cacheIdem.find? (fun p => p.1 == k)).map Prod.snd

/-- cache.set on the idempotency cache (last write wins). -/
def cacheSet (db : DB) (k : String) (v : Nat) : DB :=
  { db with cacheIdem := (k, v) :: db.cacheIdem.filter (fun p => p.1 != k) }

/-- cache.delete on the idempotency cache. -/
def cacheDelete (db : DB) (k : String) : DB :=
  { db with cacheIdem := db.cacheIdem.filter (fun p => p.1 != k) }

/-- UPDATE of one transaction row selected by id. -/
def updateTxn (db : DB) (tid : Nat) (f : Txn → Txn) : DB :=
  { db with txns := db.txns.map (fun t => if t.tid == tid then f t else t) }

/-- PaymentIntent.objects.get(gateway_payment_id=...). -/
def findIntent (db : DB) (pid : String) : Option PaymentIntent :=
  db.intents.find? (fun i => i.gateway_payment_id == pid)

/-- UPDATE of one payment intent row selected by gateway_payment_id. -/
def updateIntent (db : DB) (pid : String) (f : PaymentIntent → PaymentIntent) : DB :=
  { db with intents := db.intents.map (fun i => if i.gateway_payment_id == pid then f i else i) }

/-- WebhookEvent.objects.filter(event_id=...).first(). -/
def findEvent (db : DB) (eid : String) : Option WebhookEvent :=
  db.events.find? (fun e => e.event_id == eid)

/-- UPDATE of one webhook event row selected by event_id. -/
def updateEvent (db : DB) (eid : String) (f : WebhookEvent → WebhookEvent) : DB :=
  { db with events := db.events.map (fun e => if e.event_id == eid then f e else e) }

/-- Domain errors (fintech_core.exceptions plus the builtin exceptions
the services can raise).  The python messages interpolate balances and
amounts; the model keeps fixed message prefixes. -/
inductive Err where
  | invalidTransaction (msg : String)
  | insufficientBalance (msg : String)
  | valueError (msg : String)
  | doesNotExist (msg : String)
  | integrityError
deriving DecidableEq, Repr

/-! ## transactions.services.TransactionService -/

/-- TransactionService.generate_reference_id: TXN-<16 uppercase hex of a
fresh uuid4>.  Modelled with the fresh transaction counter as the source
of uniqueness. -/
def generate_reference_id (db : DB) : String :=
  "TXN-" ++ toString db.nextTid

/-- TransactionService.check_idempotency (services.py lines 31-53):
cache first; a stale cache entry is deleted and the database is the
fallback; a database hit repopulates the cache.  Returns the found
transaction (if any) together with the state as mutated by the cache
traffic. -/
def check_idempotency (db : DB) (idempotency_key : String) : Option Txn × DB :=
  if idempotency_key == "" then (none, db)
  else
    match cacheGet db idempotency_key with
    | some tid =>
      match findTxnById db tid with
      | some txn => (some txn, db)
      | none =>
        let db1 := cacheDelete db idempotency_key
        match findTxnByRef db1 idempotency_key with
        | some txn => (some txn, cacheSet db1 idempotency_key txn.tid)
        | none => (none, db1)
    | none =>
      match findTxnByRef db idempotency_key with
      | some txn => (some txn, cacheSet db idempotency_key txn.tid)
      | none => (none, db)

/-- Reference-id resolution shared by transfer_money and add_money:
use the caller's key when it is truthy, otherwise generate one. -/
def resolveRef (db : DB) (idempotency_key : Option String) : String :=
  match idempotency_key with
  | some k => if k == "" then generate_reference_id db else k
  | none => generate_reference_id db

/-- TransactionService.transfer_money (services.py lines 55-162).

The whole function body runs under the transaction.atomic decorator:
an exception that escapes it rolls back every database write made
inside, so each error branch returns the caller's original state.  In
particular the mark_failed calls in the except blocks run inside the
same atomic block and are re-raised, so the FAILED update is rolled
back together with the header insert.

mark_completed saves only status/completed_at, so the balance
before/after stamps live on the returned in-memory instance and never
reach the stored row. -/
def transfer_money (db : DB) (from_user to_user : User) (amount : Money)
    (description : String) (idempotency_key : Option String) :
    Except Err Txn × DB :=
  if from_user.uid == to_user.uid then
    (.error (.invalidTransaction "Cannot transfer to yourself"), db)
  else if !from_user.can_transact then
    (.error (.invalidTransaction "Sender is not verified to perform transactions"), db)
  else if !to_user.can_transact then
    (.error (.invalidTransaction "Recipient is not verified to receive transactions"), db)
  else
    let reference_id := resolveRef db idempotency_key
    match check_idempotency db reference_id with
    | (some existing, db1) => (.ok existing, db1)
    | (none, db1) =>
      if db1.txns.any (fun t => t.reference_id == reference_id) then
        -- IntegrityError on the unique reference_id: re-run the idempotency
        -- check and return the pre-existing transaction
        match check_idempotency db1 reference_id with
        | (some existing, db2) => (.ok existing, db2)
        | (none, _) => (.error .integrityError, db)
      else
        let txn0 : Txn :=
          { tid := db1.nextTid, reference_id := reference_id,
            from_user := some from_user.uid, to_user := some to_user.uid,
            amount := amount, transaction_type := .TRANSFER,
            status := .PROCESSING, description := description }
        let db2 := { db1 with txns := db1.txns ++ [txn0], nextTid := db1.nextTid + 1 }
        -- select_for_update: the sender wallet row is locked first, then
        -- the recipient wallet row (lines 100-102)
        match getBalance? db2.wallets from_user.uid, getBalance? db2.wallets to_user.uid with
        | some from_bal, some to_bal =>
          if from_bal < amount then
            -- InsufficientBalanceError is raised after mark_failed; the
            -- atomic block rolls back the header insert and the FAILED mark
            (.error (.insufficientBalance "Insufficient balance"), db)
          else if amount ≤ 0 then
            -- Wallet.debit raises ValueError for non-positive amounts; the
            -- generic except block marks failed and re-raises: rollback
            (.error (.valueError "Debit amount must be positive"), db)
          else
            let from_after := from_bal - amount
            let to_after := to_bal + amount
            let wallets3 :=
              setBalance (setBalance db2.wallets from_user.uid from_after) to_user.uid to_after
            let db3 := { db2 with wallets := wallets3 }
            let dEntry : LedgerEntry :=
              { txn := txn0.tid, user := from_user.uid, entry_type := .DEBIT,
                amount := amount, balance_after := from_after }
            let cEntry : LedgerEntry :=
              { txn := txn0.tid, user := to_user.uid, entry_type := .CREDIT,
                amount := amount, balance_after := to_after }
            let db4 := { db3 with ledger := db3.ledger ++ [dEntry, cEntry] }
            let db5 := updateTxn db4 txn0.tid (fun t => { t with status := .COMPLETED })
            let db6 := cacheSet db5 reference_id txn0.tid
            let txn_mem : Txn :=
              { txn0 with
                from_balance_before := some from_bal, to_balance_before := some to_bal,
                from_balance_after := some from_after, to_balance_after := some to_after,
                status := .COMPLETED }
            (.ok txn_mem, db6)
        | _, _ =>
          -- Wallet.DoesNotExist: caught by the generic except, marked failed,
          -- re-raised: rollback
          (.error (.doesNotExist "Wallet matching query does not exist"), db)

/-- TransactionService.add_money (services.py lines 164-237): the
deposit path.  Same atomic-rollback semantics as transfer_money.  Note
that no can_transact / is_active check is made on the recipient. -/
def add_money (db : DB) (user : User) (amount : Money)
    (description : String) (reference_id? : Option String) :
    Except Err Txn × DB :=
  let reference_id := resolveRef db reference_id?
  match check_idempotency db reference_id with
  | (some existing, db1) => (.ok existing, db1)
  | (none, db1) =>
    if db1.txns.any (fun t => t.reference_id == reference_id) then
      match check_idempotency db1 reference_id with
      | (some existing, db2) => (.ok existing, db2)
      | (none, _) => (.error .integrityError, db)
    else
      let txn0 : Txn :=
        { tid := db1.nextTid, reference_id := reference_id,
          from_user := none, to_user := some user.uid,
          amount := amount, transaction_type := .DEPOSIT,
          status := .PROCESSING, description := description }
      let db2 := { db1 with txns := db1.txns ++ [txn0], nextTid := db1.nextTid + 1 }
      match getBalance? db2.wallets user.uid with
      | none => (.error (.doesNotExist "Wallet matching query does not exist"), db)
      | some bal =>
        if amount ≤ 0 then
          -- Wallet.credit raises ValueError; rollback
          (.error (.valueError "Credit amount must be positive"), db)
        else
          let after := bal + amount
          let db3 := { db2 with wallets := setBalance db2.wallets user.uid after }
          let entry : LedgerEntry :=
            { txn := txn0.tid, user := user.uid, entry_type := .CREDIT,
              amount := amount, balance_after := after }
          let db4 := { db3 with ledger := db3.ledger ++ [entry] }
          let db5 := updateTxn db4 txn0.tid (fun t => { t with status := .COMPLETED })
          let db6 := cacheSet db5 reference_id txn0.tid
          let txn_mem : Txn :=
            { txn0 with to_balance_before := some bal,
                        to_balance_after := some after, status := .COMPLETED }
          (.ok txn_mem, db6)

/-- The order in which transfer_money issues its two select_for_update
wallet fetches (services.py lines 100-102): the sender's wallet row is
always locked first, then the recipient's. -/
def transferLockOrder (from_uid to_uid : String) : List String :=
  [from_uid, to_uid]

/-- Strict character comparison by code point. -/
def charLt (a b : Char) : Bool :=
  a.toNat < b.toNat

/-- Lexicographic less-or-equal on character lists. -/
def lexLe : List Char → List Char → Bool
  | [], _ => true
  | _ :: _, [] => false
  | a :: as, b :: bs =>
    if charLt a b then true
    else if charLt b a then false
    else lexLe as bs

/-- Modelled from the spec: the deterministic global lock order of
section 4.F step 2 - lock the wallet whose user_id sorts
lexicographically smaller first, then the other. -/
def specLockOrder (a b : String) : List String :=
  if lexLe a.data b.data then [a, b] else [b, a]

/-! ## payments.services.PaymentService and payments.views -/

/-- PaymentService.verify_webhook_signature (payments/services.py lines
149-167).  hmacSha256Hex stands for the hex HMAC-SHA256 function (key,
message); payload_string is str(payload) - the python str() of the
PARSED dict, not the raw request bytes.  hmac.compare_digest is
functionally string equality (its constant-time execution has no
shallow-embedding content). -/
def verify_webhook_signature (hmacSha256Hex : String → String → String)
    (payload_string : String) (signature : String) (secret : String) : Bool :=
  hmacSha256Hex secret payload_string == signature

/-- An inbound webhook HTTP request as seen by the handler: the body
after json.loads (none models a JSON parse failure) and the
X-Webhook-Signature header, which the handler never reads. -/
structure HttpRequest where
  body : Option Payload
  signature : Option String
deriving DecidableEq, Repr

/-- The webhook_handler HTTP responses. -/
inductive HandlerResult where
  | received
  | badRequestJson
deriving DecidableEq, Repr

/-- payments.views.webhook_handler (views.py lines 116-147).  The
signature-verification block is commented out in the source, so every
request with well-formed JSON is accepted and enqueued for
process_webhook_async; the handler itself persists nothing. -/
def webhook_handler (db : DB) (queue : List Payload) (req : HttpRequest) :
    HandlerResult × DB × List Payload :=
  match req.body with
  | none => (.badRequestJson, db, queue)
  | some payload => (.received, db, queue ++ [payload])

/-- The try block of PaymentService.process_payment_webhook
(payments/services.py lines 102-147); db0 is the rollback state, db1
the state with the event row in PROCESSING, ev1 the in-memory event
instance.  Errors escaping the block roll the atomic transaction back
to db0 (the except blocks mark_failed and re-raise). -/
def webhookTryBlock (db0 db1 : DB) (ev1 : WebhookEvent) (payload : Payload)
    (event_type : String) : Except Err WebhookEvent × DB :=
  let payment_id := payload.payment_id
  match findIntent db1 payment_id with
  | none =>
    -- PaymentIntent.DoesNotExist: mark_failed then re-raise; the atomic
    -- block rolls every write of this delivery back
    (.error (.doesNotExist ("Payment intent not found: " ++ payment_id)), db0)
  | some intent =>
    if event_type == "payment.succeeded" then
      let db2 := updateIntent db1 payment_id
        (fun i => { i with status := PaymentStatus.SUCCEEDED })
      let transaction_ref := "DEPOSIT-" ++ intent.gateway_payment_id
      match add_money db2 intent.user intent.amount
          ("Deposit via " ++ intent.payment_method) (some transaction_ref) with
      | (.ok _, db3) =>
        let ev2 := { ev1 with status := EventStatus.PROCESSED }
        let db4 := updateEvent db3 ev1.event_id (fun _ => ev2)
        (.ok ev2, db4)
      | (.error e, _) =>
        -- the generic except block: mark_failed, re-raise, rollback
        (.error e, db0)
    else if event_type == "payment.failed" then
      let msg := payload.error_message.getD "Payment failed"
      let db2 := updateIntent db1 payment_id
        (fun i => { i with status := PaymentStatus.FAILED, error_message := msg })
      let ev2 := { ev1 with status := EventStatus.PROCESSED }
      let db3 := updateEvent db2 ev1.event_id (fun _ => ev2)
      (.ok ev2, db3)
    else
      -- unknown event types are marked processed
      let ev2 := { ev1 with status := EventStatus.PROCESSED }
      let db2 := updateEvent db1 ev1.event_id (fun _ => ev2)
      (.ok ev2, db2)

/-- PaymentService.process_payment_webhook (payments/services.py lines
73-147).  The function runs under transaction.atomic; the two except
blocks call webhook_event.mark_failed and re-raise, so on error every
write of the delivery - the event insert / PROCESSING update, the
intent update and the FAILED mark itself - is rolled back and the
original state is returned. -/
def process_payment_webhook (db0 : DB) (payload : Payload) :
    Except Err WebhookEvent × DB :=
  let event_id := payload.payment_id
  let event_type := payload.event.getD "payment.succeeded"
  match findEvent db0 event_id with
  | some existing =>
    if existing.status == .PROCESSED then
      (.ok existing, db0)
    else
      let ev1 := { existing with status := EventStatus.PROCESSING }
      let db1 := updateEvent db0 event_id (fun _ => ev1)
      webhookTryBlock db0 db1 ev1 payload event_type
  | none =>
    let ev1 : WebhookEvent :=
      { event_id := event_id, event_type := event_type, status := .PROCESSING }
    let db1 := { db0 with events := db0.events ++ [ev1] }
    webhookTryBlock db0 db1 ev1 payload event_type

/-- @shared_task(bind=True, max_retries=3) on process_webhook_async. -/
def webhookMaxRetries : Nat := 3

/-- The base of the countdown computed in process_webhook_async. -/
def webhookRetryBase : Nat := 60

/-- Celery-level outcome of one run of the process_webhook_async task. -/
inductive TaskOutcome where
  | success (event_id : String)
  | retryScheduled (countdown : Nat)
  | maxRetriesExceeded
deriving DecidableEq, Repr

/-- payments.tasks.process_webhook_async (tasks.py lines 10-31):
retries is self.request.retries, the number of retries already
performed by Celery.  On exception the task calls
self.retry(countdown=60 * 2 ** retries), which re-schedules while
retries < max_retries and otherwise lets the error escape. -/
def process_webhook_async (db : DB) (payload : Payload) (retries : Nat) :
    TaskOutcome × DB :=
  match process_payment_webhook db payload with
  | (.ok ev, db1) => (.success ev.event_id, db1)
  | (.error _, db1) =>
    if retries < webhookMaxRetries then
      (.retryScheduled (webhookRetryBase * 2 ^ retries), db1)
    else
      (.maxRetriesExceeded, db1)

/-! ## users.views.UserViewSet KYC actions -/

/-- HTTP-level rejections of the KYC endpoints. -/
inductive KycErr where
  | alreadyVerified
  | staffOnly
deriving DecidableEq, Repr

/-- users.views.UserViewSet.submit_kyc (views.py lines 79-100) combined
with KYCSubmissionSerializer.update (serializers.py lines 102-113): a
VERIFIED user is rejected; any other status is set to IN_REVIEW. -/
def submit_kyc (user : User) : Except KycErr User :=
  if user.kyc_status == KYCStatus.VERIFIED then
    .error .alreadyVerified
  else
    .ok { user with kyc_status := KYCStatus.IN_REVIEW }

/-- users.views.UserViewSet.approve_kyc (views.py lines 102-121): after
the staff check the target's kyc_status is set to VERIFIED with no
check of its current value. -/
def approve_kyc (admin target : User) : Except KycErr User :=
  if !admin.is_staff then .error .staffOnly
  else .ok { target with kyc_status := KYCStatus.VERIFIED }

/-- users.views.UserViewSet.reject_kyc (views.py lines 123-141). -/
def reject_kyc (admin target : User) : Except KycErr User :=
  if !admin.is_staff then .error .staffOnly
  else .ok { target with kyc_status := KYCStatus.REJECTED }

/-- Modelled from the spec: the permitted transitions of the KYC state
machine in section 4.G (submit, approve, reject, expire, resubmit). -/
def kycAllowed : KYCStatus → KYCStatus → Bool
  | .PENDING, .IN_REVIEW => true
  | .IN_REVIEW, .VERIFIED => true
  | .IN_REVIEW, .REJECTED => true
  | .VERIFIED, .EXPIRED => true
  | .EXPIRED, .IN_REVIEW => true
  | _, _ => false

/-! ## transactions.serializers / transactions.views transfer endpoint -/

/-- Modelled from the spec: MIN_TRANSACTION_AMOUNT (Money, default
0.01).  The Django settings module is not part of the provided
sources; the serializer reads the bound from settings. -/
def MIN_TRANSACTION_AMOUNT : Money := mkRat 1 100

/-- TransferRequestSerializer amount validation (serializers.py lines
47-73): the DRF field bound min_value=0.01 runs first, then
validate_amount checks settings.MIN_TRANSACTION_AMOUNT and
settings.MAX_TRANSACTION_AMOUNT.  Returns the first error message. -/
def validate_amount (minAmount maxAmount : Money) (value : Money) : Option String :=
  if value < mkRat 1 100 then
    some "Ensure this value is greater than or equal to 0.01."
  else if value < minAmount then
    some "Amount must be at least MIN_TRANSACTION_AMOUNT"
  else if value > maxAmount then
    some "Amount cannot exceed MAX_TRANSACTION_AMOUNT"
  else
    none

/-- HTTP-level result of the transfer endpoint. -/
inductive ViewResult where
  | created (t : Txn)
  | validationError (msg : String)
  | insufficientBalance (msg : String)
  | invalidTransaction (msg : String)
  | internalError
deriving DecidableEq, Repr

/-- transactions.views.TransactionViewSet.transfer (views.py lines
49-107): the serializer validations (amount bounds, recipient active
and verified) run before TransactionService.transfer_money is invoked;
service errors are mapped to HTTP classes. -/
def transfer_view (db : DB) (minAmount maxAmount : Money)
    (from_user to_user : User) (amount : Money) (description : String)
    (idempotency_key : Option String) : ViewResult × DB :=
  match validate_amount minAmount maxAmount amount with
  | some m => (.validationError m, db)
  | none =>
    if !to_user.is_active then
      (.validationError "Recipient account is not active", db)
    else if !to_user.can_transact then
      (.validationError "Recipient is not verified to receive transactions", db)
    else
      match transfer_money db from_user to_user amount description idempotency_key with
      | (.ok t, db1) => (.created t, db1)
      | (.error (.insufficientBalance m), db1) => (.insufficientBalance m, db1)
      | (.error (.invalidTransaction m), db1) => (.invalidTransaction m, db1)
      | (.error _, db1) => (.internalError, db1)

/-! ## Invariants and operation sequences -/

/-- Signed value of a ledger entry: CREDIT positive, DEBIT negative. -/
def entrySigned (e : LedgerEntry) : Money :=
  match e.entry_type with
  | .CREDIT => e.amount
  | .DEBIT => -e.amount

/-- Signed sum of one user's ledger entries. -/
def ledgerSum (l : List LedgerEntry) (uid : String) : Money :=
  ((l.filter (fun e => e.user == uid)).map entrySigned).sum

/-- The ledger entries belonging to one transaction. -/
def txnEntries (l : List LedgerEntry) (tid : Nat) : List LedgerEntry :=
  l.filter (fun e => e.txn == tid)

/-- A completed TRANSFER's double-entry shape: exactly two ledger
entries, a DEBIT for the sender and a CREDIT for the recipient, both
with the transaction's amount. -/
def TransferEntriesOK (l : List LedgerEntry) (t : Txn) : Prop :=
  match txnEntries l t.tid with
  | [d, c] =>
    d.entry_type = .DEBIT ∧ t.from_user = some d.user ∧ d.amount = t.amount ∧
    c.entry_type = .CREDIT ∧ t.to_user = some c.user ∧ c.amount = t.amount
  | _ => False

instance (l : List LedgerEntry) (t : Txn) : Decidable (TransferEntriesOK l t) := by
  unfold TransferEntriesOK
  split <;> infer_instance

/-- The consistency invariant of claim C3: wallet-ledger agreement for
every wallet row, and the double-entry shape for every completed
transfer. -/
def Consistent (db : DB) : Prop :=
  (∀ p ∈ db.wallets, p.2 = ledgerSum db.ledger p.1) ∧
  (∀ t ∈ db.txns, t.status = .COMPLETED → t.transaction_type = .TRANSFER →
    TransferEntriesOK db.ledger t)

instance (db : DB) : Decidable (Consistent db) := by
  unfold Consistent
  infer_instance

/-- Structural well-formedness of the state: transaction ids are below
the fresh counter (so freshly created ids are new), ledger entries
reference existing ids, and wallet rows have distinct user ids (the
unique constraint on wallets.user_id). -/
def WF (db : DB) : Prop :=
  (∀ t ∈ db.txns, t.tid < db.nextTid) ∧
  (∀ e ∈ db.ledger, e.txn < db.nextTid) ∧
  (db.wallets.map Prod.fst).Nodup

instance (db : DB) : Decidable (WF db) := by
  unfold WF
  infer_instance

/-- A user-initiated service call: a transfer or a deposit. -/
inductive Op where
  | transfer (from_user to_user : User) (amount : Money)
      (description : String) (idempotency_key : Option String)
  | deposit (user : User) (amount : Money)
      (description : String) (reference_id? : Option String)
deriving DecidableEq, Repr

/-- State effect of one service call. -/
def applyOp (db : DB) : Op → DB
  | .transfer f t a d i => (transfer_money db f t a d i).2
  | .deposit u a d r => (add_money db u a d r).2

/-- State effect of a sequence of service calls. -/
def applyOps (db : DB) : List Op → DB
  | [] => db
  | op :: rest => applyOps (applyOp db op) rest

/-- State after n sequential invocations of transfer_money with
identical arguments. -/
def transferIter (f t : User) (a : Money) (d : String) (k : Option String)
    (db : DB) : Nat → DB
  | 0 => db
  | n + 1 => (transfer_money (transferIter f t a d k db n) f t a d k).2

/-- Result of the (n+1)-st sequential invocation of transfer_money
with identical arguments. -/
def transferResult (f t : User) (a : Money) (d : String) (k : Option String)
    (db : DB) (n : Nat) : Except Err Txn :=
  (transfer_money (transferIter f t a d k db n) f t a d k).1

/-- State after n sequential deliveries of the same webhook payload. -/
def webhookIter (p : Payload) (db : DB) : Nat → DB
  | 0 => db
  | n + 1 => (process_payment_webhook (webhookIter p db n) p).2

/-! ## Committed post-states, fixtures and auxiliary predicates -/

/-- Two states agreeing on everything except the idempotency cache. -/
def SameCore (db' db : DB) : Prop :=
  db'.txns = db.txns ∧ db'.ledger = db.ledger ∧ db'.wallets = db.wallets ∧
  db'.intents = db.intents ∧ db'.events = db.events ∧ db'.nextTid = db.nextTid

/-- The stored transaction row of a committed fresh-key transfer (the
balance stamps are absent: mark_completed persists only the status). -/
def transferRow (db : DB) (f t : User) (a : Money) (d K : String) : Txn :=
  { tid := db.nextTid
    reference_id := K
    from_user := some f.uid
    to_user := some t.uid
    amount := a
    transaction_type := .TRANSFER
    status := .COMPLETED
    description := d }

/-- The in-memory transaction instance returned by a committed
fresh-key transfer. -/
def transferMem (db : DB) (f t : User) (a fb tb : Money) (d K : String) : Txn :=
  { transferRow db f t a d K with
    from_balance_before := some fb
    from_balance_after := some (fb - a)
    to_balance_before := some tb
    to_balance_after := some (tb + a) }

/-- The committed state after a successful fresh-key transfer. -/
def transferPost (db : DB) (f t : User) (a fb tb : Money) (d K : String) : DB :=
  { txns := db.txns ++ [transferRow db f t a d K]
    ledger := db.ledger ++
      [{ txn := db.nextTid
         user := f.uid
         entry_type := .DEBIT
         amount := a
         balance_after := fb - a },
       { txn := db.nextTid
         user := t.uid
         entry_type := .CREDIT
         amount := a
         balance_after := tb + a }]
    wallets := setBalance (setBalance db.wallets f.uid (fb - a)) t.uid (tb + a)
    cacheIdem := (K, db.nextTid) :: db.cacheIdem.filter (fun p => p.1 != K)
    intents := db.intents
    events := db.events
    nextTid := db.nextTid + 1 }

/-- The stored transaction row of a committed fresh-reference deposit. -/
def depositRow (db : DB) (u : User) (a : Money) (d r : String) : Txn :=
  { tid := db.nextTid
    reference_id := r
    from_user := none
    to_user := some u.uid
    amount := a
    transaction_type := .DEPOSIT
    status := .COMPLETED
    description := d }

/-- The in-memory transaction instance returned by a committed
fresh-reference deposit. -/
def depositMem (db : DB) (u : User) (a b : Money) (d r : String) : Txn :=
  { depositRow db u a d r with
    to_balance_before := some b
    to_balance_after := some (b + a) }

/-- The committed state after a successful fresh-reference deposit. -/
def depositPost (db : DB) (u : User) (a b : Money) (d r : String) : DB :=
  { txns := db.txns ++ [depositRow db u a d r]
    ledger := db.ledger ++
      [{ txn := db.nextTid
         user := u.uid
         entry_type := .CREDIT
         amount := a
         balance_after := b + a }]
    wallets := setBalance db.wallets u.uid (b + a)
    cacheIdem := (r, db.nextTid) :: db.cacheIdem.filter (fun p => p.1 != r)
    intents := db.intents
    events := db.events
    nextTid := db.nextTid + 1 }

deriving instance DecidableEq for Except

/-! ## Concrete fixtures for witnesses and counterexamples -/

/-- A VERIFIED, active user "a". -/
def exA : User :=
  { uid := "a", kyc_status := .VERIFIED, is_active := true, is_staff := false }

/-- A VERIFIED, active user "b". -/
def exB : User :=
  { uid := "b", kyc_status := .VERIFIED, is_active := true, is_staff := false }

/-- A staff user. -/
def exAdmin : User :=
  { uid := "adm", kyc_status := .VERIFIED, is_active := true, is_staff := true }

/-- A PENDING (never submitted) user. -/
def exPending : User :=
  { uid := "u1", kyc_status := .PENDING, is_active := true, is_staff := false }

/-- State with wallets a: 10.00 and b: 0.00 and nothing else. -/
def exDb : DB :=
  { txns := [], ledger := [], wallets := [("a", 10), ("b", 0)]
    cacheIdem := [], intents := [], events := [], nextTid := 0 }

/-- State with zero balances (ledger-consistent). -/
def exDbZero : DB :=
  { txns := [], ledger := [], wallets := [("a", 0), ("b", 0)]
    cacheIdem := [], intents := [], events := [], nextTid := 0 }

/-- A PENDING payment intent of 40.00 for user a. -/
def exIntent : PaymentIntent :=
  { gateway_payment_id := "PAY-X", user := exA, amount := 40, status := .PENDING }

/-- exDb extended with the pending intent. -/
def exDbIntent : DB := { exDb with intents := [exIntent] }

/-- A payment.succeeded payload for PAY-X. -/
def exPayload : Payload :=
  { event := some "payment.succeeded", payment_id := "PAY-X" }

/-! ## Helper lemmas -/

theorem sameCore_refl (db : DB) : SameCore db db := by
  exact ⟨rfl, rfl, rfl, rfl, rfl, rfl⟩

theorem sameCore_WF {db' db : DB} (h : SameCore db' db) (hwf : WF db) : WF db' := by
  obtain ⟨h1, h2, h3, _, _, h6⟩ := h
  unfold WF at hwf ⊢
  rw [h1, h2, h3, h6]
  exact hwf

theorem sameCore_Consistent {db' db : DB} (h : SameCore db' db)
    (hc : Consistent db) : Consistent db' := by
  obtain ⟨h1, h2, h3, _, _, _⟩ := h
  unfold Consistent at hc ⊢
  rw [h1, h2, h3]
  exact hc

theorem cacheSet_sameCore (db : DB) (k : String) (v : Nat) :
    SameCore (cacheSet db k v) db := by
  exact ⟨rfl, rfl, rfl, rfl, rfl, rfl⟩

theorem check_idempotency_sameCore (db : DB) (k : String) :
    SameCore (check_idempotency db k).2 db := by
  unfold check_idempotency
  split
  · exact sameCore_refl db
  · split
    · split
      · exact sameCore_refl db
      · show SameCore (match findTxnByRef (cacheDelete db k) k with
          | some txn => (some txn, cacheSet (cacheDelete db k) k txn.tid)
          | none => (none, cacheDelete db k)).2 db
        split
        · exact ⟨rfl, rfl, rfl, rfl, rfl, rfl⟩
        · exact ⟨rfl, rfl, rfl, rfl, rfl, rfl⟩
    · split
      · exact ⟨rfl, rfl, rfl, rfl, rfl, rfl⟩
      · exact sameCore_refl db

/-- A fresh key (no cache entry, no stored transaction) makes
check_idempotency a no-op returning none. -/
theorem check_idempotency_fresh {db : DB} {k : String} (hk : k ≠ "")
    (hc : cacheGet db k = none) (hr : findTxnByRef db k = none) :
    check_idempotency db k = (none, db) := by
  unfold check_idempotency
  rw [if_neg (by simp [hk]), hc]
  show (match findTxnByRef db k with
    | some txn => (some txn, cacheSet db k txn.tid)
    | none => (none, db)) = (none, db)
  rw [hr]

/-- A cache hit whose transaction id resolves makes check_idempotency
return that transaction and leave the state unchanged. -/
theorem check_idempotency_cache_hit {db : DB} {k : String} {n : Nat} {r : Txn}
    (hk : k ≠ "") (hc : cacheGet db k = some n) (ht : findTxnById db n = some r) :
    check_idempotency db k = (some r, db) := by
  unfold check_idempotency
  rw [if_neg (by simp [hk]), hc]
  show (match findTxnById db n with
    | some txn => (some txn, db)
    | none =>
      match findTxnByRef (cacheDelete db k) k with
      | some txn => (some txn, cacheSet (cacheDelete db k) k txn.tid)
      | none => (none, cacheDelete db k)) = (some r, db)
  rw [ht]

/-- If no stored transaction carries the reference, the duplicate-probe
List.any is false. -/
theorem any_ref_false {db : DB} {k : String} (hr : findTxnByRef db k = none) :
    db.txns.any (fun t => t.reference_id == k) = false := by
  unfold findTxnByRef at hr
  rw [List.find?_eq_none] at hr
  simp only [List.any_eq_false]
  intro t htm
  exact fun hcon => hr t htm hcon

/-- Looking up a fresh transaction id in an appended list skips the
older rows. -/
theorem find?_tid_append {l : List Txn} {n : Nat} {t0 : Txn}
    (h : ∀ t ∈ l, t.tid < n) (h0 : t0.tid = n) :
    (l ++ [t0]).find? (fun t => t.tid == n) = some t0 := by
  induction l with
  | nil => simp [List.find?, h0]
  | cons a l ih =>
    have ha : a.tid < n := h a (List.mem_cons_self a l)
    have : (a.tid == n) = false := by
      simp only [beq_eq_false_iff_ne]
      omega
    simp only [List.cons_append, List.find?, this]
    exact ih (fun t htm => h t (List.mem_cons_of_mem a htm))

/-- A row update keyed on a fresh transaction id leaves older rows
alone. -/
theorem map_id_of_fresh {l : List Txn} {n : Nat} {f : Txn → Txn}
    (h : ∀ t ∈ l, (t.tid == n) = false) :
    l.map (fun t => if t.tid == n then f t else t) = l := by
  induction l with
  | nil => rfl
  | cons a l ih =>
    simp only [List.map_cons]
    rw [h a (List.mem_cons_self a l), if_neg (by simp)]
    rw [ih (fun t htm => h t (List.mem_cons_of_mem a htm))]

/-- getBalance? of an updated wallet row, same user. -/
theorem getBalance?_setBalance_self {ws : List (String × Money)} {u : String}
    {b0 : Money} (h : getBalance? ws u = some b0) (b : Money) :
    getBalance? (setBalance ws u b) u = some b := by
  induction ws with
  | nil => simp [getBalance?] at h
  | cons p ws ih =>
    by_cases hp : p.1 = u
    · simp [getBalance?, setBalance, hp]
    · have hp' : (p.1 == u) = false := by simp [hp]
      simp only [getBalance?, setBalance, List.map_cons, List.find?, hp'] at h ⊢
      rw [if_neg (by simp [hp])]
      simp only [List.find?, hp']
      exact ih h

/-- getBalance? of an updated wallet row, different user. -/
theorem getBalance?_setBalance_ne {ws : List (String × Money)} {u v : String}
    (h : u ≠ v) (b : Money) :
    getBalance? (setBalance ws v b) u = getBalance? ws u := by
  induction ws with
  | nil => rfl
  | cons p ws ih =>
    simp only [setBalance, List.map_cons] at ih ⊢
    unfold getBalance? at ih ⊢
    by_cases hp : p.1 = v
    · have hnu : ¬ p.1 = u := fun hc => h (hc ▸ hp)
      rw [if_pos (by simp [hp])]
      rw [List.find?_cons_of_neg _ (by simp [hnu]),
          List.find?_cons_of_neg _ (by simp [hnu])]
      exact ih
    · rw [if_neg (by simp [hp])]
      by_cases hpu : p.1 = u
      · rw [List.find?_cons_of_pos _ (by simp [hpu]),
            List.find?_cons_of_pos _ (by simp [hpu])]
      · rw [List.find?_cons_of_neg _ (by simp [hpu]),
            List.find?_cons_of_neg _ (by simp [hpu])]
        exact ih

/-- setBalance does not change the set of wallet keys. -/
theorem setBalance_keys (ws : List (String × Money)) (u : String) (b : Money) :
    (setBalance ws u b).map Prod.fst = ws.map Prod.fst := by
  unfold setBalance
  rw [List.map_map]
  apply List.map_congr_left
  intro p _
  by_cases hp : p.1 = u
  · simp [hp]
  · simp [hp]

/-- Membership in an updated wallet list. -/
theorem setBalance_mem {ws : List (String × Money)} {u : String} {b : Money}
    {p : String × Money} (h : p ∈ setBalance ws u b) :
    p = (u, b) ∨ (p ∈ ws ∧ p.1 ≠ u) := by
  unfold setBalance at h
  rw [List.mem_map] at h
  obtain ⟨q, hq, hpq⟩ := h
  by_cases hqu : q.1 = u
  · left
    rw [if_pos (by simp [hqu])] at hpq
    rw [← hpq, hqu]
  · right
    rw [if_neg (by simp [hqu])] at hpq
    exact ⟨hpq ▸ hq, hpq ▸ hqu⟩

/-- A successful wallet lookup exhibits the wallet row. -/
theorem getBalance?_mem {ws : List (String × Money)} {u : String} {b : Money}
    (h : getBalance? ws u = some b) : (u, b) ∈ ws := by
  unfold getBalance? at h
  cases hf : ws.find? (fun p => p.1 == u) with
  | none => rw [hf] at h; simp at h
  | some q =>
    rw [hf] at h
    simp only [Option.map_some'] at h
    have hq := List.find?_some hf
    have hqm := List.mem_of_find?_eq_some hf
    simp only [beq_iff_eq] at hq
    have : q = (u, b) := by
      obtain ⟨q1, q2⟩ := q
      simp only at hq
      simp only [Option.some.injEq] at h
      rw [hq, h]
    exact this ▸ hqm

/-- ledgerSum distributes over list append. -/
theorem ledgerSum_append (l l' : List LedgerEntry) (u : String) :
    ledgerSum (l ++ l') u = ledgerSum l u + ledgerSum l' u := by
  unfold ledgerSum
  rw [List.filter_append, List.map_append, List.sum_append]

/-- ledgerSum of a singleton. -/
theorem ledgerSum_single (e : LedgerEntry) (u : String) :
    ledgerSum [e] u = if e.user = u then entrySigned e else 0 := by
  unfold ledgerSum
  by_cases h : e.user = u
  · rw [if_pos h, List.filter_cons_of_pos (by simp [h])]
    simp
  · rw [if_neg h, List.filter_cons_of_neg (by simp [h])]
    simp

/-- txnEntries distributes over list append. -/
theorem txnEntries_append (l l' : List LedgerEntry) (n : Nat) :
    txnEntries (l ++ l') n = txnEntries l n ++ txnEntries l' n := by
  unfold txnEntries
  rw [List.filter_append]

/-- Fresh-id entries do not appear among older ledger rows. -/
theorem txnEntries_fresh {l : List LedgerEntry} {n : Nat}
    (h : ∀ e ∈ l, e.txn < n) : txnEntries l n = [] := by
  unfold txnEntries
  rw [List.filter_eq_nil_iff]
  intro e he
  have := h e he
  simp only [beq_iff_eq]
  omega

/-! ## Behaviour of the services on the main paths -/

/-- A transfer whose preconditions all hold and whose idempotency key
is fresh commits the header, both wallet updates, the two ledger rows
and the cache entry, and returns the in-memory COMPLETED transaction
(whose balance stamps were never persisted to the stored row). -/
theorem transfer_money_success
    {db : DB} {f t : User} {a fb tb : Money} {d K : String}
    (hwf : WF db)
    (hne : f.uid ≠ t.uid)
    (hf : f.can_transact = true) (ht : t.can_transact = true)
    (hK : K ≠ "")
    (hcache : cacheGet db K = none) (href : findTxnByRef db K = none)
    (hfw : getBalance? db.wallets f.uid = some fb)
    (htw : getBalance? db.wallets t.uid = some tb)
    (hge : ¬ fb < a) (hpos : ¬ a ≤ 0) :
    transfer_money db f t a d (some K) =
      (Except.ok (transferMem db f t a fb tb d K),
       transferPost db f t a fb tb d K) := by
  unfold transferPost transferMem transferRow
  have hne' : (f.uid == t.uid) = false := by simp [hne]
  have hK' : (K == "") = false := by simp [hK]
  have hany : db.txns.any (fun x => x.reference_id == K) = false := any_ref_false href
  have hmap : ∀ t' ∈ db.txns, (t'.tid == db.nextTid) = false := by
    intro t' htm
    have := hwf.1 t' htm
    simp only [beq_eq_false_iff_ne]
    omega
  unfold transfer_money
  rw [hne']
  simp only [Bool.false_eq_true, if_false, hf, ht, Bool.not_true, if_true]
  simp only [resolveRef, hK', Bool.false_eq_true, if_false]
  rw [check_idempotency_fresh hK hcache href]
  simp only [hany, Bool.false_eq_true, if_false]
  rw [hfw, htw]
  simp only []
  rw [if_neg hge, if_neg hpos]
  unfold updateTxn cacheSet
  simp only []
  rw [List.map_append, map_id_of_fresh hmap]
  simp

/-- A transfer whose idempotency key hits the cache (and whose cached
transaction id resolves) returns the stored transaction verbatim and
leaves the state unchanged. -/
theorem transfer_money_duplicate
    {db : DB} {f t : User} {a : Money} {d K : String} {n : Nat} {r : Txn}
    (hne : f.uid ≠ t.uid)
    (hf : f.can_transact = true) (ht : t.can_transact = true)
    (hK : K ≠ "")
    (hc : cacheGet db K = some n) (htid : findTxnById db n = some r) :
    transfer_money db f t a d (some K) = (.ok r, db) := by
  have hne' : (f.uid == t.uid) = false := by simp [hne]
  have hK' : (K == "") = false := by simp [hK]
  unfold transfer_money
  rw [hne']
  simp only [Bool.false_eq_true, if_false, hf, ht, Bool.not_true, if_true]
  simp only [resolveRef, hK', Bool.false_eq_true, if_false]
  rw [check_idempotency_cache_hit hK hc htid]

/-- A deposit with a fresh reference commits the header, the wallet
credit, the single CREDIT ledger row and the cache entry, with no
check whatsoever of the user's kyc_status or is_active flag. -/
theorem add_money_success
    {db : DB} {u : User} {a b : Money} {d r : String}
    (hwf : WF db)
    (hr : r ≠ "")
    (hcache : cacheGet db r = none) (href : findTxnByRef db r = none)
    (hw : getBalance? db.wallets u.uid = some b)
    (hpos : ¬ a ≤ 0) :
    add_money db u a d (some r) =
      (Except.ok (depositMem db u a b d r), depositPost db u a b d r) := by
  unfold depositPost depositMem depositRow
  have hr' : (r == "") = false := by simp [hr]
  have hany : db.txns.any (fun x => x.reference_id == r) = false := any_ref_false href
  have hmap : ∀ t' ∈ db.txns, (t'.tid == db.nextTid) = false := by
    intro t' htm
    have := hwf.1 t' htm
    simp only [beq_eq_false_iff_ne]
    omega
  unfold add_money
  simp only [resolveRef, hr', Bool.false_eq_true, if_false]
  rw [check_idempotency_fresh hr hcache href]
  simp only [hany, Bool.false_eq_true, if_false]
  rw [hw]
  simp only []
  rw [if_neg hpos]
  unfold updateTxn cacheSet
  simp only []
  rw [List.map_append, map_id_of_fresh hmap]
  simp

/-- A deposit whose reference hits the cache returns the stored
transaction verbatim and leaves the state unchanged. -/
theorem add_money_duplicate
    {db : DB} {u : User} {a : Money} {d r : String} {n : Nat} {txn : Txn}
    (hr : r ≠ "")
    (hc : cacheGet db r = some n) (htid : findTxnById db n = some txn) :
    add_money db u a d (some r) = (.ok txn, db) := by
  have hr' : (r == "") = false := by simp [hr]
  unfold add_money
  simp only [resolveRef, hr', Bool.false_eq_true, if_false]
  rw [check_idempotency_cache_hit hr hc htid]

/-! ## Claim C2: transfer idempotency -/

/-- C2: N >= 1 sequential invocations of transfer_money with identical
arguments and the same fresh idempotency key K commit exactly one
transaction with reference_id = K, every call returns that same
transaction id (the first call's in-memory instance, later calls the
stored row), and the two wallet balances change exactly once, by the
amount. -/
theorem transfer_idempotency
    (db : DB) (f t : User) (a fb tb : Money) (d K : String)
    (hwf : WF db) (hne : f.uid ≠ t.uid)
    (hf : f.can_transact = true) (ht : t.can_transact = true)
    (hK : K ≠ "") (hcache : cacheGet db K = none) (href : findTxnByRef db K = none)
    (hfw : getBalance? db.wallets f.uid = some fb)
    (htw : getBalance? db.wallets t.uid = some tb)
    (hge : ¬ fb < a) (hpos : ¬ a ≤ 0)
    (n : Nat) (hn : 1 ≤ n) :
    ((transferIter f t a d (some K) db n).txns.filter
        (fun x => x.reference_id == K)).length = 1 ∧
    (∃ res, transferResult f t a d (some K) db (n - 1) = .ok res ∧
      res.tid = db.nextTid) ∧
    getBalance? (transferIter f t a d (some K) db n).wallets f.uid = some (fb - a) ∧
    getBalance? (transferIter f t a d (some K) db n).wallets t.uid = some (tb + a) := by
  have hsucc := transfer_money_success (d := d) hwf hne hf ht hK hcache href hfw htw hge hpos
  have hc2 : cacheGet (transferPost db f t a fb tb d K) K = some db.nextTid := by
    unfold transferPost cacheGet
    rw [List.find?_cons_of_pos _ (by simp)]
    rfl
  have ht2 : findTxnById (transferPost db f t a fb tb d K) db.nextTid =
      some (transferRow db f t a d K) := by
    unfold transferPost findTxnById
    exact find?_tid_append (fun x hx => hwf.1 x hx) rfl
  have hdup := transfer_money_duplicate (a := a) (d := d) hne hf ht hK hc2 ht2
  have hstab : ∀ m, 1 ≤ m →
      transferIter f t a d (some K) db m = transferPost db f t a fb tb d K := by
    intro m hm
    induction m with
    | zero => omega
    | succ m ih =>
      by_cases hm0 : m = 0
      · subst hm0
        show (transfer_money (transferIter f t a d (some K) db 0) f t a d (some K)).2 = _
        show (transfer_money db f t a d (some K)).2 = _
        rw [hsucc]
      · have hm1 : 1 ≤ m := by omega
        show (transfer_money (transferIter f t a d (some K) db m) f t a d (some K)).2 = _
        rw [ih hm1, hdup]
  refine ⟨?_, ?_, ?_, ?_⟩
  · rw [hstab n hn]
    unfold transferPost
    rw [List.filter_append]
    have h1 : db.txns.filter (fun x => x.reference_id == K) = [] := by
      rw [List.filter_eq_nil_iff]
      intro x hx
      unfold findTxnByRef at href
      rw [List.find?_eq_none] at href
      exact href x hx
    rw [h1]
    simp [transferRow]
  · by_cases hn1 : n = 1
    · subst hn1
      refine ⟨transferMem db f t a fb tb d K, ?_, rfl⟩
      show (transfer_money (transferIter f t a d (some K) db 0) f t a d (some K)).1 = _
      show (transfer_money db f t a d (some K)).1 = _
      rw [hsucc]
    · have hn2 : 1 ≤ n - 1 := by omega
      refine ⟨transferRow db f t a d K, ?_, rfl⟩
      show (transfer_money (transferIter f t a d (some K) db (n-1)) f t a d (some K)).1 = _
      rw [hstab (n-1) hn2, hdup]
  · rw [hstab n hn]
    unfold transferPost
    show getBalance? (setBalance (setBalance db.wallets f.uid (fb - a)) t.uid (tb + a)) f.uid = _
    rw [getBalance?_setBalance_ne hne (tb + a)]
    exact getBalance?_setBalance_self hfw (fb - a)
  · rw [hstab n hn]
    unfold transferPost
    show getBalance? (setBalance (setBalance db.wallets f.uid (fb - a)) t.uid (tb + a)) t.uid = _
    have hmid : getBalance? (setBalance db.wallets f.uid (fb - a)) t.uid = some tb := by
      rw [getBalance?_setBalance_ne (Ne.symm hne) (fb - a)]
      exact htw
    exact getBalance?_setBalance_self hmid (tb + a)

/-! ## Claim C3: ledger invariants -/

theorem txnEntries_ne {l : List LedgerEntry} {n : Nat}
    (h : ∀ e ∈ l, e.txn ≠ n) : txnEntries l n = [] := by
  unfold txnEntries
  rw [List.filter_eq_nil_iff]
  intro e he
  simp only [beq_iff_eq]
  exact h e he

theorem sameCore_trans {db1 db2 db3 : DB} (h1 : SameCore db1 db2)
    (h2 : SameCore db2 db3) : SameCore db1 db3 := by
  obtain ⟨a1, a2, a3, a4, a5, a6⟩ := h1
  obtain ⟨b1, b2, b3, b4, b5, b6⟩ := h2
  exact ⟨a1.trans b1, a2.trans b2, a3.trans b3, a4.trans b4, a5.trans b5, a6.trans b6⟩

theorem sameCore_exists {db' db : DB} (h : SameCore db' db) :
    ∃ c, db' = { db with cacheIdem := c } := by
  obtain ⟨h1, h2, h3, h4, h5, h6⟩ := h
  refine ⟨db'.cacheIdem, ?_⟩
  cases db'
  cases db
  simp_all

theorem ledgerSum_nil (u : String) : ledgerSum [] u = 0 := rfl

theorem ledgerSum_cons (e : LedgerEntry) (l : List LedgerEntry) (u : String) :
    ledgerSum (e :: l) u = (if e.user = u then entrySigned e else 0) + ledgerSum l u := by
  unfold ledgerSum
  by_cases h : e.user = u
  · rw [if_pos h, List.filter_cons_of_pos (by simp [h])]
    simp
  · rw [if_neg h, List.filter_cons_of_neg (by simp [h])]
    simp

theorem transferEntriesOK_congr {l1 l2 : List LedgerEntry} {t : Txn}
    (h : txnEntries l1 t.tid = txnEntries l2 t.tid) :
    TransferEntriesOK l1 t ↔ TransferEntriesOK l2 t := by
  unfold TransferEntriesOK
  rw [h]

theorem transferPost_preserves (db : DB) (f t : User) (a fb tb : Money) (d K : String)
    (hwf : WF db) (hc : Consistent db)
    (hne : f.uid ≠ t.uid)
    (hfw : getBalance? db.wallets f.uid = some fb)
    (htw : getBalance? db.wallets t.uid = some tb) :
    WF (transferPost db f t a fb tb d K) ∧
    Consistent (transferPost db f t a fb tb d K) := by
  obtain ⟨hwf1, hwf2, hwf3⟩ := hwf
  obtain ⟨hc1, hc2⟩ := hc
  unfold transferPost
  constructor
  · refine ⟨?_, ?_, ?_⟩
    · intro x hx
      dsimp only at hx ⊢
      simp only [List.mem_append, List.mem_singleton] at hx
      rcases hx with hx | hx
      · have := hwf1 x hx
        omega
      · subst hx
        unfold transferRow
        dsimp only
        omega
    · intro e he
      dsimp only at he ⊢
      simp only [List.mem_append, List.mem_cons, List.not_mem_nil, or_false] at he
      rcases he with he | he | he
      · have := hwf2 e he
        omega
      · subst he
        dsimp only
        omega
      · subst he
        dsimp only
        omega
    · dsimp only
      rw [setBalance_keys, setBalance_keys]
      exact hwf3
  · constructor
    · -- wallet-ledger agreement
      intro p hp
      dsimp only at hp ⊢
      have hsum2 : ∀ u : String, ledgerSum
          [{ txn := db.nextTid, user := f.uid, entry_type := .DEBIT,
             amount := a, balance_after := fb - a },
           { txn := db.nextTid, user := t.uid, entry_type := .CREDIT,
             amount := a, balance_after := tb + a }] u =
          (if f.uid = u then -a else 0) + (if t.uid = u then a else 0) := by
        intro u
        rw [ledgerSum_cons, ledgerSum_cons, ledgerSum_nil]
        unfold entrySigned
        dsimp only
        ring
      rcases setBalance_mem hp with hp1 | ⟨hp2, hpne⟩
      · -- p = (t.uid, tb + a)
        subst hp1
        simp only
        rw [ledgerSum_append, hsum2]
        have htb : tb = ledgerSum db.ledger t.uid := hc1 _ (getBalance?_mem htw)
        rw [if_neg hne, if_pos rfl, ← htb]
        ring
      · rcases setBalance_mem hp2 with hq1 | ⟨hq2, hqne⟩
        · -- p = (f.uid, fb - a)
          subst hq1
          simp only at hpne ⊢
          rw [ledgerSum_append, hsum2]
          have hfb : fb = ledgerSum db.ledger f.uid := hc1 _ (getBalance?_mem hfw)
          rw [if_pos rfl, if_neg (fun hx => hpne hx.symm), ← hfb]
          ring
        · -- untouched wallet
          rw [ledgerSum_append, hsum2]
          rw [if_neg (fun hx => hqne hx.symm), if_neg (fun hx => hpne hx.symm)]
          have := hc1 p hq2
          rw [← this]
          ring
    · -- double entry for completed transfers
      intro x hx hst hty
      dsimp only at hx ⊢
      simp only [List.mem_append, List.mem_singleton] at hx
      rcases hx with hx | hx
      · have hcongr : txnEntries (db.ledger ++
            [{ txn := db.nextTid, user := f.uid, entry_type := .DEBIT,
               amount := a, balance_after := fb - a },
             { txn := db.nextTid, user := t.uid, entry_type := .CREDIT,
               amount := a, balance_after := tb + a }]) x.tid =
            txnEntries db.ledger x.tid := by
          rw [txnEntries_append]
          have hlt := hwf1 x hx
          have : txnEntries
              [{ txn := db.nextTid, user := f.uid, entry_type := EntryType.DEBIT,
                 amount := a, balance_after := fb - a },
               { txn := db.nextTid, user := t.uid, entry_type := EntryType.CREDIT,
                 amount := a, balance_after := tb + a }] x.tid = [] := by
            apply txnEntries_ne
            intro e he
            simp only [List.mem_cons, List.not_mem_nil, or_false] at he
            rcases he with he | he
            · subst he; dsimp only; omega
            · subst he; dsimp only; omega
          rw [this, List.append_nil]
        rw [transferEntriesOK_congr hcongr]
        exact hc2 x hx hst hty
      · subst hx
        unfold TransferEntriesOK
        have hrow : (transferRow db f t a d K).tid = db.nextTid := rfl
        rw [hrow]
        rw [txnEntries_append, txnEntries_fresh hwf2]
        unfold txnEntries
        simp [transferRow]

theorem depositPost_preserves (db : DB) (u : User) (a b : Money) (d r : String)
    (hwf : WF db) (hc : Consistent db)
    (hw : getBalance? db.wallets u.uid = some b) :
    WF (depositPost db u a b d r) ∧ Consistent (depositPost db u a b d r) := by
  obtain ⟨hwf1, hwf2, hwf3⟩ := hwf
  obtain ⟨hc1, hc2⟩ := hc
  unfold depositPost
  constructor
  · refine ⟨?_, ?_, ?_⟩
    · intro x hx
      dsimp only at hx ⊢
      simp only [List.mem_append, List.mem_singleton] at hx
      rcases hx with hx | hx
      · have := hwf1 x hx
        omega
      · subst hx
        unfold depositRow
        dsimp only
        omega
    · intro e he
      dsimp only at he ⊢
      simp only [List.mem_append, List.mem_singleton] at he
      rcases he with he | he
      · have := hwf2 e he
        omega
      · subst he
        dsimp only
        omega
    · dsimp only
      rw [setBalance_keys]
      exact hwf3
  · constructor
    · intro p hp
      dsimp only at hp ⊢
      have hsum1 : ∀ w : String, ledgerSum
          [{ txn := db.nextTid, user := u.uid, entry_type := .CREDIT,
             amount := a, balance_after := b + a }] w =
          (if u.uid = w then a else 0) := by
        intro w
        rw [ledgerSum_cons, ledgerSum_nil]
        unfold entrySigned
        dsimp only
        ring
      rcases setBalance_mem hp with hp1 | ⟨hp2, hpne⟩
      · subst hp1
        dsimp only
        rw [ledgerSum_append, hsum1]
        have hb : b = ledgerSum db.ledger u.uid := hc1 _ (getBalance?_mem hw)
        rw [if_pos rfl, ← hb]
      · rw [ledgerSum_append, hsum1]
        rw [if_neg (fun hx => hpne hx.symm)]
        have := hc1 p hp2
        rw [← this]
        ring
    · intro x hx hst hty
      dsimp only at hx ⊢
      simp only [List.mem_append, List.mem_singleton] at hx
      rcases hx with hx | hx
      · have hcongr : txnEntries (db.ledger ++
            [{ txn := db.nextTid, user := u.uid, entry_type := .CREDIT,
               amount := a, balance_after := b + a }]) x.tid =
            txnEntries db.ledger x.tid := by
          rw [txnEntries_append]
          have hlt := hwf1 x hx
          have hnil : txnEntries
              [{ txn := db.nextTid, user := u.uid, entry_type := EntryType.CREDIT,
                 amount := a, balance_after := b + a }] x.tid = [] := by
            apply txnEntries_ne
            intro e he
            simp only [List.mem_cons, List.not_mem_nil, or_false] at he
            subst he
            dsimp only
            omega
          rw [hnil, List.append_nil]
        rw [transferEntriesOK_congr hcongr]
        exact hc2 x hx hst hty
      · subst hx
        unfold depositRow at hty
        simp at hty

theorem transfer_money_preserves (db : DB) (f t : User) (a : Money) (d : String)
    (i : Option String) (hwf : WF db) (hc : Consistent db) :
    WF (transfer_money db f t a d i).2 ∧ Consistent (transfer_money db f t a d i).2 := by
  unfold transfer_money
  split
  · exact ⟨hwf, hc⟩
  · rename_i hne0
    split
    · exact ⟨hwf, hc⟩
    · split
      · exact ⟨hwf, hc⟩
      · simp only []
        generalize resolveRef db i = r
        split
        · rename_i existing db1 heq
          have hsc := check_idempotency_sameCore db r
          rw [heq] at hsc
          exact ⟨sameCore_WF hsc hwf, sameCore_Consistent hsc hc⟩
        · rename_i db1 heq
          have hsc := check_idempotency_sameCore db r
          rw [heq] at hsc
          obtain ⟨c, rfl⟩ := sameCore_exists hsc
          split
          · split
            · rename_i existing2 db2 heq2
              have hsc2 := check_idempotency_sameCore { db with cacheIdem := c } r
              rw [heq2] at hsc2
              have hsc3 : SameCore db2 db :=
                sameCore_trans hsc2 ⟨rfl, rfl, rfl, rfl, rfl, rfl⟩
              exact ⟨sameCore_WF hsc3 hwf, sameCore_Consistent hsc3 hc⟩
            · exact ⟨hwf, hc⟩
          · split
            · rename_i fb tb hfw0 htw0
              dsimp only at hfw0 htw0 ⊢
              split
              · exact ⟨hwf, hc⟩
              · split
                · exact ⟨hwf, hc⟩
                · have hne : f.uid ≠ t.uid := by simpa using hne0
                  have hmap : ∀ x ∈ db.txns, (x.tid == db.nextTid) = false := by
                    intro x hx
                    have := hwf.1 x hx
                    simp only [beq_eq_false_iff_ne]
                    omega
                  have hpres := transferPost_preserves db f t a fb tb d r hwf hc hne hfw0 htw0
                  refine ⟨sameCore_WF ?hs hpres.1, sameCore_Consistent ?hs hpres.2⟩
                  refine ⟨?_, rfl, rfl, rfl, rfl, rfl⟩
                  dsimp only [cacheSet, updateTxn]
                  rw [List.map_append, map_id_of_fresh hmap]
                  simp [transferPost, transferRow]
            · exact ⟨hwf, hc⟩

theorem add_money_preserves (db : DB) (u : User) (a : Money) (d : String)
    (r? : Option String) (hwf : WF db) (hc : Consistent db) :
    WF (add_money db u a d r?).2 ∧ Consistent (add_money db u a d r?).2 := by
  unfold add_money
  simp only []
  generalize resolveRef db r? = r
  split
  · rename_i existing db1 heq
    have hsc := check_idempotency_sameCore db r
    rw [heq] at hsc
    exact ⟨sameCore_WF hsc hwf, sameCore_Consistent hsc hc⟩
  · rename_i db1 heq
    have hsc := check_idempotency_sameCore db r
    rw [heq] at hsc
    obtain ⟨c, rfl⟩ := sameCore_exists hsc
    split
    · split
      · rename_i existing2 db2 heq2
        have hsc2 := check_idempotency_sameCore { db with cacheIdem := c } r
        rw [heq2] at hsc2
        have hsc3 : SameCore db2 db :=
          sameCore_trans hsc2 ⟨rfl, rfl, rfl, rfl, rfl, rfl⟩
        exact ⟨sameCore_WF hsc3 hwf, sameCore_Consistent hsc3 hc⟩
      · exact ⟨hwf, hc⟩
    · split
      · exact ⟨hwf, hc⟩
      · rename_i b hw0
        dsimp only at hw0 ⊢
        split
        · exact ⟨hwf, hc⟩
        · have hmap : ∀ x ∈ db.txns, (x.tid == db.nextTid) = false := by
            intro x hx
            have := hwf.1 x hx
            simp only [beq_eq_false_iff_ne]
            omega
          have hpres := depositPost_preserves db u a b d r hwf hc hw0
          refine ⟨sameCore_WF ?hs2 hpres.1, sameCore_Consistent ?hs2 hpres.2⟩
          refine ⟨?_, rfl, rfl, rfl, rfl, rfl⟩
          dsimp only [cacheSet, updateTxn]
          rw [List.map_append, map_id_of_fresh hmap]
          simp [depositPost, depositRow]

/-- C3: after any sequence of transfer_money / add_money calls starting
from a consistent well-formed state, every wallet balance equals the
signed sum (CREDIT minus DEBIT) of that user's ledger entries, and
every COMPLETED TRANSFER has exactly two ledger entries - a DEBIT for
the sender and a CREDIT for the recipient, both with the transaction's
amount. -/
theorem ledger_invariants_preserved (ops : List Op) (db : DB)
    (hwf : WF db) (hc : Consistent db) : Consistent (applyOps db ops) := by
  induction ops generalizing db with
  | nil => exact hc
  | cons op rest ih =>
    show Consistent (applyOps (applyOp db op) rest)
    cases op with
    | transfer f t a d i =>
      have h := transfer_money_preserves db f t a d i hwf hc
      exact ih _ h.1 h.2
    | deposit u a d r =>
      have h := add_money_preserves db u a d r hwf hc
      exact ih _ h.1 h.2

/-! ## Claim C6: webhook exactly-once -/

theorem map_id_of_false {α : Type} {l : List α} {q : α → Bool} {f : α → α}
    (h : ∀ x ∈ l, q x = false) :
    l.map (fun x => if q x then f x else x) = l := by
  induction l with
  | nil => rfl
  | cons a l ih =>
    simp only [List.map_cons]
    rw [h a (List.mem_cons_self a l), if_neg (by simp)]
    rw [ih (fun x hx => h x (List.mem_cons_of_mem a hx))]

theorem find?_eid_append {l : List WebhookEvent} {eid : String} {e0 : WebhookEvent}
    (h : ∀ e ∈ l, (e.event_id == eid) = false) (h0 : e0.event_id = eid) :
    (l ++ [e0]).find? (fun e => e.event_id == eid) = some e0 := by
  induction l with
  | nil => simp [List.find?, h0]
  | cons a l ih =>
    simp only [List.cons_append, List.find?, h a (List.mem_cons_self a l)]
    exact ih (fun e he => h e (List.mem_cons_of_mem a he))

theorem prefixed_ne_empty (pre s : String) (h : pre.data ≠ []) : (pre ++ s) ≠ "" := by
  intro hc
  have h2 := congrArg String.data hc
  rw [String.data_append] at h2
  simp only [] at h2
  rcases List.append_eq_nil.mp h2 with ⟨h3, _⟩
  exact h h3

theorem webhook_first_delivery
    {db : DB} {p : Payload} {intent : PaymentIntent} {b : Money}
    (hwf : WF db)
    (hevt : p.event = some "payment.succeeded")
    (hev : findEvent db p.payment_id = none)
    (hint : findIntent db p.payment_id = some intent)
    (hcache : cacheGet db ("DEPOSIT-" ++ intent.gateway_payment_id) = none)
    (href : findTxnByRef db ("DEPOSIT-" ++ intent.gateway_payment_id) = none)
    (hw : getBalance? db.wallets intent.user.uid = some b)
    (hpos : ¬ intent.amount ≤ 0) :
    process_payment_webhook db p =
      (.ok { event_id := p.payment_id
             event_type := "payment.succeeded"
             status := .PROCESSED },
       updateEvent
         (depositPost
           (updateIntent
             { db with events := db.events ++
                [{ event_id := p.payment_id
                   event_type := "payment.succeeded"
                   status := .PROCESSING }] }
             p.payment_id (fun i => { i with status := PaymentStatus.SUCCEEDED }))
           intent.user intent.amount b ("Deposit via " ++ intent.payment_method)
           ("DEPOSIT-" ++ intent.gateway_payment_id))
         p.payment_id
         (fun _ => { event_id := p.payment_id
                     event_type := "payment.succeeded"
                     status := .PROCESSED })) := by
  have hWF2 : WF (updateIntent
      { db with events := db.events ++
         [{ event_id := p.payment_id
            event_type := "payment.succeeded"
            status := .PROCESSING }] }
      p.payment_id (fun i => { i with status := PaymentStatus.SUCCEEDED })) := hwf
  have hrne : ("DEPOSIT-" ++ intent.gateway_payment_id) ≠ "" :=
    prefixed_ne_empty _ _ (by decide)
  unfold process_payment_webhook
  rw [hevt]
  simp only [Option.getD_some]
  rw [hev]
  show webhookTryBlock db
      { db with events := db.events ++
         [{ event_id := p.payment_id
            event_type := "payment.succeeded"
            status := .PROCESSING }] }
      { event_id := p.payment_id
        event_type := "payment.succeeded"
        status := .PROCESSING } p "payment.succeeded" = _
  unfold webhookTryBlock
  simp only [beq_self_eq_true, if_true]
  rw [show findIntent
      { db with events := db.events ++
         [{ event_id := p.payment_id
            event_type := "payment.succeeded"
            status := .PROCESSING }] } p.payment_id = some intent from hint]
  dsimp only
  rw [add_money_success hWF2 hrne hcache href hw hpos]
theorem webhook_noop {db : DB} {p : Payload} {ev : WebhookEvent}
    (h : findEvent db p.payment_id = some ev) (hst : ev.status = .PROCESSED) :
    process_payment_webhook db p = (.ok ev, db) := by
  unfold process_payment_webhook
  dsimp only
  rw [h]
  dsimp only
  rw [if_pos (by simp [hst])]

/-- C6: for any number n >= 1 of sequential deliveries of the same
payment.succeeded webhook (same event_id = payment_id), the state
equals that after a single delivery: the wallet is credited exactly
once by the intent's amount, exactly one WebhookEvent row exists for
the event_id, it is PROCESSED, and every further delivery is a no-op
returning that row. -/
theorem webhook_exactly_once
    (db : DB) (p : Payload) (intent : PaymentIntent) (b : Money)
    (hwf : WF db)
    (hevt : p.event = some "payment.succeeded")
    (hev : findEvent db p.payment_id = none)
    (hint : findIntent db p.payment_id = some intent)
    (hcache : cacheGet db ("DEPOSIT-" ++ intent.gateway_payment_id) = none)
    (href : findTxnByRef db ("DEPOSIT-" ++ intent.gateway_payment_id) = none)
    (hw : getBalance? db.wallets intent.user.uid = some b)
    (hpos : ¬ intent.amount ≤ 0)
    (n : Nat) (hn : 1 ≤ n) :
    webhookIter p db n = webhookIter p db 1 ∧
    getBalance? (webhookIter p db n).wallets intent.user.uid
      = some (b + intent.amount) ∧
    ((webhookIter p db n).events.filter
      (fun e => e.event_id == p.payment_id)).length = 1 ∧
    (∃ ev, findEvent (webhookIter p db n) p.payment_id = some ev ∧
      ev.status = .PROCESSED ∧
      process_payment_webhook (webhookIter p db n) p = (.ok ev, webhookIter p db n)) := by
  have hfirst := webhook_first_delivery hwf hevt hev hint hcache href hw hpos
  have hnomatch : ∀ e ∈ db.events, (e.event_id == p.payment_id) = false := by
    intro e he
    unfold findEvent at hev
    rw [List.find?_eq_none] at hev
    simpa using hev e he
  -- the committed post state of the first delivery
  have hone : webhookIter p db 1 = (process_payment_webhook db p).2 := rfl
  have hevents : (webhookIter p db 1).events = db.events ++
      [{ event_id := p.payment_id
         event_type := "payment.succeeded"
         status := .PROCESSED }] := by
    rw [hone, hfirst]
    dsimp only [updateEvent, depositPost, updateIntent]
    rw [List.map_append, map_id_of_false hnomatch]
    simp
  have hfind : findEvent (webhookIter p db 1) p.payment_id =
      some { event_id := p.payment_id
             event_type := "payment.succeeded"
             status := .PROCESSED } := by
    unfold findEvent
    rw [hevents]
    exact find?_eid_append hnomatch rfl
  have hnoop := webhook_noop hfind rfl
  have hstab : ∀ m, 1 ≤ m → webhookIter p db m = webhookIter p db 1 := by
    intro m hm
    induction m with
    | zero => omega
    | succ m ih =>
      by_cases hm0 : m = 0
      · subst hm0
        rfl
      · have hm1 : 1 ≤ m := by omega
        show (process_payment_webhook (webhookIter p db m) p).2 = _
        rw [ih hm1, hnoop]
  refine ⟨hstab n hn, ?_, ?_, ?_⟩
  · rw [hstab n hn, hone, hfirst]
    dsimp only [updateEvent, depositPost, updateIntent]
    show getBalance? (setBalance _ intent.user.uid (b + intent.amount)) intent.user.uid = _
    exact getBalance?_setBalance_self hw (b + intent.amount)
  · rw [hstab n hn, hevents]
    rw [List.filter_append]
    have h1 : db.events.filter (fun e => e.event_id == p.payment_id) = [] := by
      rw [List.filter_eq_nil_iff]
      intro e he
      simp [hnomatch e he]
    rw [h1]
    simp
  · refine ⟨{ event_id := p.payment_id
              event_type := "payment.succeeded"
              status := .PROCESSED }, ?_, rfl, ?_⟩
    · rw [hstab n hn]
      exact hfind
    · rw [hstab n hn]
      exact hnoop


/-! ## Remaining claims -/
/-! ## Claim C1: insufficient balance -/

/-- C1 counterexample: users a, b VERIFIED; a's balance 10.00; transfer
50.00 a to b with a fresh key raises INSUFFICIENT_BALANCE and leaves the
wallets and the ledger untouched, but NO transaction row survives at
all (let alone one with status FAILED): mark_failed runs inside the
same transaction.atomic block whose exception rolls everything back,
contradicting the claim that the FAILED header is durably committed. -/
theorem c1_no_failed_row_counterexample :
    transfer_money exDb exA exB 50 "" (some "K1")
      = (.error (.insufficientBalance "Insufficient balance"), exDb) ∧
    (transfer_money exDb exA exB 50 "" (some "K1")).2.txns = [] ∧
    (transfer_money exDb exA exB 50 "" (some "K1")).2.ledger = [] ∧
    (transfer_money exDb exA exB 50 "" (some "K1")).2.wallets = [("a", 10), ("b", 0)] := by
  decide

/-- C1 (amended): a transfer from a wallet whose balance is below the
amount (all other preconditions holding, key fresh) raises
INSUFFICIENT_BALANCE and returns the state completely unchanged: the
wallets and ledger are untouched, and the transaction header together
with its FAILED mark is rolled back with the atomic block, so no FAILED
row is committed. -/
theorem c1_insufficient_balance_rolls_back
    (db : DB) (f t : User) (a fb tb : Money) (d K : String)
    (hne : f.uid ≠ t.uid)
    (hf : f.can_transact = true) (ht : t.can_transact = true)
    (hK : K ≠ "")
    (hcache : cacheGet db K = none) (href : findTxnByRef db K = none)
    (hfw : getBalance? db.wallets f.uid = some fb)
    (htw : getBalance? db.wallets t.uid = some tb)
    (hlt : fb < a) :
    transfer_money db f t a d (some K) =
      (.error (.insufficientBalance "Insufficient balance"), db) := by
  have hne' : (f.uid == t.uid) = false := by simp [hne]
  have hK' : (K == "") = false := by simp [hK]
  have hany : db.txns.any (fun x => x.reference_id == K) = false := any_ref_false href
  unfold transfer_money
  rw [hne']
  simp only [Bool.false_eq_true, if_false, hf, ht, Bool.not_true, if_true]
  simp only [resolveRef, hK', Bool.false_eq_true, if_false]
  rw [check_idempotency_fresh hK hcache href]
  simp only [hany, Bool.false_eq_true, if_false]
  rw [hfw, htw]
  simp only []
  rw [if_pos hlt]

/-- C1 witness. -/
theorem c1_insufficient_balance_rolls_back_witness :
    transfer_money exDb exA exB 50 "" (some "K1")
      = (.error (.insufficientBalance "Insufficient balance"), exDb) :=
  c1_insufficient_balance_rolls_back exDb exA exB 50 10 0 "" "K1"
    (by decide) (by decide) (by decide) (by decide) (by decide) (by decide)
    (by decide) (by decide) (by decide)

/-! ## Claim C4: lock ordering -/

/-- C4 counterexample: when the sender's user id sorts lexicographically
larger ("b" sending to "a"), transfer_money still locks the sender's
wallet first, so the acquisition order differs from the spec's
lexicographic order. -/
theorem c4_lock_order_counterexample :
    transferLockOrder "b" "a" = ["b", "a"] ∧
    specLockOrder "b" "a" = ["a", "b"] ∧
    transferLockOrder "b" "a" ≠ specLockOrder "b" "a" := by
  decide

/-- C4 (amended): transfer_money acquires the two wallet row locks in
argument order - the sender's wallet first, then the recipient's -
regardless of how the user ids compare lexicographically. -/
theorem c4_lock_order_sender_first (from_uid to_uid : String) :
    transferLockOrder from_uid to_uid = [from_uid, to_uid] := rfl

/-! ## Claim C5: webhook signature verification -/

/-- C5 counterexample: a request carrying an arbitrary, unverifiable
signature header is accepted with HTTP 200 and enqueued: the
verification block in webhook_handler is commented out in the source,
so no request is ever rejected with UNAUTHORIZED (the handler's result
type has no such outcome). -/
theorem c5_handler_skips_verification_counterexample :
    webhook_handler exDb [] { body := some exPayload, signature := some "bad-signature" }
      = (.received, exDb, [exPayload]) := by
  decide

/-- C5 (amended): webhook_handler performs no signature verification -
its outcome is independent of the signature header, every request with
well-formed JSON is accepted with status received and enqueued, and the
handler itself persists nothing (the state is returned unchanged).  The
verify_webhook_signature helper (which HMACs the str() of the parsed
payload, not the raw body, and compares in constant time) exists but is
never invoked by the handler. -/
theorem c5_handler_accepts_all (db : DB) (queue : List Payload)
    (p : Payload) (sig sig' : Option String) :
    webhook_handler db queue { body := some p, signature := sig }
        = (.received, db, queue ++ [p]) ∧
    webhook_handler db queue { body := some p, signature := sig }
        = webhook_handler db queue { body := some p, signature := sig' } := by
  exact ⟨rfl, rfl⟩

/-! ## Claim C7: amount bounds -/

/-- C7 counterexample: a transfer of 0.005 - below
MIN_TRANSACTION_AMOUNT = 0.01 - invoked on the service completes
successfully: TransactionService.transfer_money contains no amount
range check at all, so instead of failing with INVALID_TRANSACTION
before touching the store, it commits a COMPLETED transaction row and
mutates both wallets. -/
theorem c7_below_min_transfer_succeeds_counterexample :
    mkRat 1 200 < MIN_TRANSACTION_AMOUNT ∧
    transfer_money exDb exA exB (mkRat 1 200) "" (some "K7")
      = (.ok (transferMem exDb exA exB (mkRat 1 200) 10 0 "" "K7"),
         transferPost exDb exA exB (mkRat 1 200) 10 0 "" "K7") ∧
    (transferMem exDb exA exB (mkRat 1 200) 10 0 "" "K7").status = .COMPLETED ∧
    (transferPost exDb exA exB (mkRat 1 200) 10 0 "" "K7").txns.length = 1 :=
  ⟨by decide,
   transfer_money_success (by decide) (by decide) (by decide) (by decide)
     (by decide) (by decide) (by decide) (by decide) (by decide)
     (by decide) (by decide),
   rfl, rfl⟩

/-- C7 (amended): the amount range is enforced only at the HTTP
boundary: for an amount below the configured minimum or above the
maximum, TransferRequestSerializer validation rejects the request with
a (DRF) validation error - not an INVALID_TRANSACTION - before the
service is invoked, so no transaction row is created and no wallet is
read or mutated; the service itself never checks the range. -/
theorem c7_amount_range_enforced_in_serializer
    (db : DB) (minAmount maxAmount : Money) (f t : User) (a : Money)
    (d : String) (i : Option String) (h : a < minAmount ∨ maxAmount < a) :
    ∃ m, transfer_view db minAmount maxAmount f t a d i = (.validationError m, db) := by
  have hv : ∃ m, validate_amount minAmount maxAmount a = some m := by
    unfold validate_amount
    by_cases h0 : a < mkRat 1 100
    · rw [if_pos h0]
      exact ⟨_, rfl⟩
    · rcases h with h | h
      · rw [if_neg h0, if_pos h]
        exact ⟨_, rfl⟩
      · by_cases h1 : a < minAmount
        · rw [if_neg h0, if_pos h1]
          exact ⟨_, rfl⟩
        · rw [if_neg h0, if_neg h1, if_pos h]
          exact ⟨_, rfl⟩
  obtain ⟨m, hm⟩ := hv
  refine ⟨m, ?_⟩
  unfold transfer_view
  rw [hm]

/-- C7 witness. -/
theorem c7_amount_range_enforced_in_serializer_witness :
    ∃ m, transfer_view exDb MIN_TRANSACTION_AMOUNT 10000 exA exB (mkRat 1 200)
      "" none = (.validationError m, exDb) :=
  c7_amount_range_enforced_in_serializer exDb MIN_TRANSACTION_AMOUNT 10000 exA exB
    (mkRat 1 200) "" none (Or.inl (by decide))

/-! ## Claim C8: KYC state machine -/

/-- C8 counterexample: a staff admin approving a user whose kyc_status
is still PENDING moves them straight to VERIFIED - approve_kyc has no
IN_REVIEW guard - although PENDING to VERIFIED is not a permitted
transition of the spec's state machine. -/
theorem c8_approve_from_pending_counterexample :
    approve_kyc exAdmin exPending
      = .ok { exPending with kyc_status := .VERIFIED } ∧
    kycAllowed KYCStatus.PENDING KYCStatus.VERIFIED = false := by
  decide

/-- C8 (amended): submit_kyc moves any non-VERIFIED user (PENDING,
IN_REVIEW, REJECTED or EXPIRED) to IN_REVIEW and rejects a VERIFIED
user; a staff approve moves a user to VERIFIED from ANY current status
with no IN_REVIEW guard; a staff reject likewise moves any status to
REJECTED; no expire action exists in the code. -/
theorem c8_kyc_endpoints_behaviour (admin u : User)
    (hstaff : admin.is_staff = true) :
    (u.kyc_status ≠ .VERIFIED →
      submit_kyc u = .ok { u with kyc_status := .IN_REVIEW }) ∧
    (u.kyc_status = .VERIFIED → submit_kyc u = .error .alreadyVerified) ∧
    approve_kyc admin u = .ok { u with kyc_status := .VERIFIED } ∧
    reject_kyc admin u = .ok { u with kyc_status := .REJECTED } := by
  refine ⟨?_, ?_, ?_, ?_⟩
  · intro h
    unfold submit_kyc
    rw [if_neg (by simp [h])]
  · intro h
    unfold submit_kyc
    rw [if_pos (by simp [h])]
  · unfold approve_kyc
    rw [hstaff]
    rfl
  · unfold reject_kyc
    rw [hstaff]
    rfl

/-- C8 witness. -/
theorem c8_kyc_endpoints_behaviour_witness :
    (exPending.kyc_status ≠ .VERIFIED →
      submit_kyc exPending = .ok { exPending with kyc_status := .IN_REVIEW }) ∧
    (exPending.kyc_status = .VERIFIED →
      submit_kyc exPending = .error .alreadyVerified) ∧
    approve_kyc exAdmin exPending = .ok { exPending with kyc_status := .VERIFIED } ∧
    reject_kyc exAdmin exPending = .ok { exPending with kyc_status := .REJECTED } :=
  c8_kyc_endpoints_behaviour exAdmin exPending (by decide)

/-! ## Claim C9: webhook retry and failure marking -/

/-- Every run of process_payment_webhook either succeeds or leaves the
state exactly as it was: all error paths re-raise out of the
transaction.atomic block, rolling back every write of the delivery. -/
theorem process_payment_webhook_snd (db : DB) (p : Payload) :
    (∃ ev, (process_payment_webhook db p).1 = .ok ev) ∨
    (process_payment_webhook db p).2 = db := by
  unfold process_payment_webhook webhookTryBlock
  dsimp only
  split
  · split
    · left
      exact ⟨_, rfl⟩
    · split
      · right
        rfl
      · split
        · split
          · left
            exact ⟨_, rfl⟩
          · right
            rfl
        · split
          · left
            exact ⟨_, rfl⟩
          · left
            exact ⟨_, rfl⟩
  · split
    · right
      rfl
    · split
      · split
        · left
          exact ⟨_, rfl⟩
        · right
          rfl
      · split
        · left
          exact ⟨_, rfl⟩
        · left
          exact ⟨_, rfl⟩

/-- C9 counterexample: delivering a payment.succeeded webhook for a
gateway payment with no stored intent raises intent-not-found; the
task re-schedules with countdown 60 s, but the state is returned
unchanged - there is NO WebhookEvent row at all afterwards, FAILED or
otherwise, because mark_failed ran inside the rolled-back atomic
block; and after the retries are exhausted the store still holds no
FAILED event. -/
theorem c9_failed_mark_rolled_back_counterexample :
    process_webhook_async exDb exPayload 0 = (.retryScheduled 60, exDb) ∧
    (process_webhook_async exDb exPayload 0).2.events = [] ∧
    process_webhook_async exDb exPayload 3 = (.maxRetriesExceeded, exDb) ∧
    (process_webhook_async exDb exPayload 3).2.events = [] := by
  decide

/-- C9 (amended): when processing a webhook raises, the surrounding
atomic transaction rolls back every write of the attempt - the FAILED
mark and retry_count increment included, so no FAILED event persists -
and the Celery task re-schedules with countdown 60 * 2 ^ r seconds
where r is the number of retries already performed (60, 120, 240),
for at most max_retries = 3 retries, after which the exception
propagates (MaxRetriesExceeded) with the state still unchanged. -/
theorem c9_webhook_retry_backoff (db : DB) (p : Payload) (r : Nat) (e : Err)
    (h : (process_payment_webhook db p).1 = .error e) :
    process_webhook_async db p r =
      (if r < webhookMaxRetries then .retryScheduled (webhookRetryBase * 2 ^ r)
       else .maxRetriesExceeded, db) := by
  have hsnd : (process_payment_webhook db p).2 = db := by
    rcases process_payment_webhook_snd db p with ⟨ev, hok⟩ | hsnd
    · rw [h] at hok
      cases hok
    · exact hsnd
  unfold process_webhook_async
  cases hps : process_payment_webhook db p with
  | mk res db1 =>
    rw [hps] at h hsnd
    dsimp only at h hsnd
    subst hsnd
    subst h
    dsimp only
    by_cases hr : r < webhookMaxRetries
    · rw [if_pos hr, if_pos hr]
    · rw [if_neg hr, if_neg hr]

/-- C9 witness. -/
theorem c9_webhook_retry_backoff_witness :
    process_webhook_async exDb exPayload 0 =
      (if 0 < webhookMaxRetries then
        .retryScheduled (webhookRetryBase * 2 ^ 0)
       else .maxRetriesExceeded, exDb) :=
  c9_webhook_retry_backoff exDb exPayload 0
    (.doesNotExist ("Payment intent not found: " ++ "PAY-X")) (by decide)

/-! ## Claim C10: deposits bypass the KYC gate -/

/-- C10: add_money credits the wallet and completes the transaction
for a user with ANY kyc_status and ANY is_active flag - the deposit
path performs no can_transact check, so an unverified or deactivated
user still receives gateway deposits. -/
theorem c10_deposit_ignores_kyc_gate
    (db : DB) (uid : String) (kyc : KYCStatus) (act st : Bool)
    (a b : Money) (d r : String)
    (hwf : WF db) (hr : r ≠ "")
    (hcache : cacheGet db r = none) (href : findTxnByRef db r = none)
    (hw : getBalance? db.wallets uid = some b) (hpos : ¬ a ≤ 0) :
    ∃ txn db1,
      add_money db { uid := uid, kyc_status := kyc, is_active := act, is_staff := st }
          a d (some r) = (.ok txn, db1) ∧
      txn.status = .COMPLETED ∧
      getBalance? db1.wallets uid = some (b + a) := by
  refine ⟨_, _, add_money_success hwf hr hcache href hw hpos, rfl, ?_⟩
  unfold depositPost
  dsimp only
  exact getBalance?_setBalance_self hw (b + a)

/-- C10 witness: a PENDING, deactivated user still receives a deposit. -/
theorem c10_deposit_ignores_kyc_gate_witness :
    ∃ txn db1,
      add_money exDb { uid := "a", kyc_status := .PENDING, is_active := false, is_staff := false }
          40 "gateway deposit" (some "DEPOSIT-PAY-X") = (.ok txn, db1) ∧
      txn.status = .COMPLETED ∧
      getBalance? db1.wallets "a" = some (10 + 40) :=
  c10_deposit_ignores_kyc_gate exDb "a" .PENDING false false 40 10
    "gateway deposit" "DEPOSIT-PAY-X" (by decide) (by decide) (by decide)
    (by decide) (by decide) (by decide)

/-- C2 witness. -/
theorem transfer_idempotency_witness :
    ((transferIter exA exB 5 "" (some "K1") exDb 2).txns.filter
        (fun x => x.reference_id == "K1")).length = 1 ∧
    (∃ res, transferResult exA exB 5 "" (some "K1") exDb (2 - 1) = .ok res ∧
      res.tid = exDb.nextTid) ∧
    getBalance? (transferIter exA exB 5 "" (some "K1") exDb 2).wallets exA.uid
      = some (10 - 5) ∧
    getBalance? (transferIter exA exB 5 "" (some "K1") exDb 2).wallets exB.uid
      = some (0 + 5) :=
  transfer_idempotency exDb exA exB 5 10 0 "" "K1" (by decide) (by decide)
    (by decide) (by decide) (by decide) (by decide) (by decide) (by decide)
    (by decide) (by decide) (by decide) 2 (by decide)

/-- C3 witness. -/
theorem ledger_invariants_preserved_witness :
    WF exDbZero ∧ Consistent exDbZero ∧
    Consistent (applyOps exDbZero
      [Op.deposit exA 100 "deposit" none, Op.transfer exA exB 30 "transfer" none]) :=
  ⟨by decide, by decide,
   ledger_invariants_preserved
     [Op.deposit exA 100 "deposit" none, Op.transfer exA exB 30 "transfer" none]
     exDbZero (by decide) (by decide)⟩

/-- C6 witness. -/
theorem webhook_exactly_once_witness :
    webhookIter exPayload exDbIntent 3 = webhookIter exPayload exDbIntent 1 ∧
    getBalance? (webhookIter exPayload exDbIntent 3).wallets exIntent.user.uid
      = some (10 + exIntent.amount) ∧
    ((webhookIter exPayload exDbIntent 3).events.filter
      (fun e => e.event_id == exPayload.payment_id)).length = 1 ∧
    (∃ ev, findEvent (webhookIter exPayload exDbIntent 3) exPayload.payment_id
        = some ev ∧
      ev.status = .PROCESSED ∧
      process_payment_webhook (webhookIter exPayload exDbIntent 3) exPayload
        = (.ok ev, webhookIter exPayload exDbIntent 3)) :=
  webhook_exactly_once exDbIntent exPayload exIntent 10 (by decide) (by decide)
    (by decide) (by decide) (by decide) (by decide) (by decide) (by decide)
    3 (by decide)


end Fintech
